import Mathlib

/-!
Shallow embedding of the Teams-automation scripts.

Sources embedded:
  * `agent_preview.py` — `CUAAgent.get_agent_actions`,
    `TeamsAutomationWithAgent.execute_agent_action`, and the perception loop
    of `TeamsAutomationWithAgent.automate_teams_with_agent`;
  * `teams_cua.py`     — `AgentWorker.run_task`, `CUADaemon._agent_loop`
    and `CUADaemon.stop`, modelled as a small-step transition relation;
  * `cui.py`           — `automate_teams` (session cleanup path);
  * `testom/testing.py` — `load_coords` / `save_coords`.

External collaborators (the desktop-control SDK, the Azure OpenAI client,
Python's `json`/file layer and the event loop) are modelled as parameters:
fallible calls become `Except`-valued oracles, the persisted coordinate file
becomes a JSON value, and cooperative scheduling becomes interleaving of the
step relation.
-/

namespace TeamsAuto

/-! ## Actions (agent_preview.py)

`details` in the Python code is the SDK's action object, read only through
`getattr(details, field, default)`; it is modelled as a record of optional
fields, and `getattr`'s default becomes `Option.getD`. -/

structure ActionDetails where
  x : Option Int := none
  y : Option Int := none
  button : Option String := none
  text : Option String := none
  scroll_x : Option Int := none
  scroll_y : Option Int := none
  keys : Option (List String) := none
  ms : Option Nat := none
deriving DecidableEq, Repr

/-- An action descriptor as consumed by `execute_agent_action`:
`action["type"]` plus the SDK action object `action["details"]`. -/
structure AgentAction where
  type : String
  details : ActionDetails
deriving DecidableEq, Repr

/-- A primitive issued against the desktop-control session
(`self.computer.interface.…`), plus the `asyncio.sleep` of the `wait` kind. -/
inductive Primitive where
  | leftClick (x y : Int)
  | typeText (s : String)
  | pressKey (k : String)
  | sleep (ms : Nat)
deriving DecidableEq, Repr

/-- The `keypress` branch of `execute_agent_action`: iterate over the keys,
press `enter` for a key whose lowercase form is `"enter"`, ignore other keys
(the source maps no other key).  A raising interface call aborts the rest of
the loop (the exception is caught by the surrounding handler and logged,
recorded here as the second component). -/
def runKeypress (iface : Primitive → Except String Unit) :
    List String → List Primitive × Option String
  | [] => ([], none)
  | k :: ks =>
    if k.toLower = "enter" then
      match iface (Primitive.pressKey "enter") with
      | Except.ok _ =>
        let r := runKeypress iface ks
        (Primitive.pressKey "enter" :: r.1, r.2)
      | Except.error e => ([Primitive.pressKey "enter"], some e)
    else runKeypress iface ks

/-- `TeamsAutomationWithAgent.execute_agent_action` (agent_preview.py
lines 114–156).  Returns the primitives issued against the session and the
error caught by the branch-wide `except` handler, if any; the function itself
never raises.  The `print` log lines (which also read `details.button`,
`scroll_x`, `scroll_y`) are not modelled: they do not touch the session.
The `scroll` branch only logs — the interface call is commented out in the
source.  An unrecognized `action["type"]` reaches the final `else`, which
only logs. -/
def execute_agent_action (iface : Primitive → Except String Unit)
    (action : AgentAction) : List Primitive × Option String :=
  let d := action.details
  if action.type = "click" then
    let p := Primitive.leftClick (d.x.getD 0) (d.y.getD 0)
    match iface p with
    | Except.ok _ => ([p], none)
    | Except.error e => ([p], some e)
  else if action.type = "type" then
    let p := Primitive.typeText (d.text.getD "")
    match iface p with
    | Except.ok _ => ([p], none)
    | Except.error e => ([p], some e)
  else if action.type = "scroll" then
    ([], none)
  else if action.type = "keypress" then
    runKeypress iface (d.keys.getD [])
  else if action.type = "wait" then
    let p := Primitive.sleep (d.ms.getD 2000)
    match iface p with
    | Except.ok _ => ([p], none)
    | Except.error e => ([p], some e)
  else
    ([], none)

/-! ## Decision-service call (agent_preview.py, `CUAAgent`) -/

/-- One item of `response.output`; `item.type` distinguishes
`"computer_call"` items, which carry an action and a call id. -/
structure OutputItem where
  type : String
  action : AgentAction
  call_id : String
deriving DecidableEq, Repr

/-- A response of `self.client.responses.create`: its opaque id (used as
`previous_response_id` of the next call) and its `output` items. -/
structure AgentResponse where
  id : String
  output : List OutputItem
deriving DecidableEq, Repr

/-- One element of the list built by `get_agent_actions`:
`{"type": call.action.type, "details": call.action, "call_id": call.call_id}`. -/
structure ActionsItem where
  type : String
  details : ActionDetails
  call_id : String
deriving DecidableEq, Repr

/-- `CUAAgent.get_agent_actions` (agent_preview.py lines 25–86).
`response_history` is `self.response_history`; `svc` stands for the single
`self.client.responses.create` call (screenshot, prompt and the fixed model
arguments are opaque to the control flow), keyed by the
`previous_response_id` the code derives from the history.  The whole body is
wrapped in `try`/`except Exception`: a raising service call yields the empty
action list and leaves the history unchanged (the append happens after the
call).  Returns the new history and the extracted actions. -/
def get_agent_actions (response_history : List AgentResponse)
    (svc : Option String → Except String AgentResponse) :
    List AgentResponse × List ActionsItem :=
  let last_response_id := (response_history.getLast?).map (fun r => r.id)
  match svc last_response_id with
  | Except.error _ => (response_history, [])
  | Except.ok response =>
    let computer_calls := response.output.filter (fun item => item.type = "computer_call")
    (response_history ++ [response],
     computer_calls.map (fun call => ⟨call.action.type, call.action.details, call.call_id⟩))

/-! ## Perception loop (agent_preview.py, `automate_teams_with_agent`)

The loop control of lines 191–235.  `actionsAt n` is the action list the
decision service produces on iteration `n` (a raising call is already an
empty list, see `get_agent_actions`); `shotOk n` is whether
`take_screenshot` returned non-empty bytes on iteration `n` (its own
`except` turns a failure into `b""`).  The debug screenshot written to disk
is assumed to succeed (a raising `open` would abort the run through the
outer handler).  Executed actions do not influence the control flow:
`execute_agent_action` absorbs its own errors.  The fuel argument
`remaining` equals `max_iterations - iteration`, so `remaining > 0` is the
`iteration < max_iterations` conjunct of the `while` condition. -/

def agentLoopAux (actionsAt : Nat → List AgentAction) (shotOk : Nat → Bool) :
    Nat → Nat → Bool → Nat × Bool
  | 0, iteration, task_completed => (iteration, task_completed)
  | remaining + 1, iteration, task_completed =>
    if task_completed then (iteration, task_completed)
    else
      let it := iteration + 1
      if shotOk it then
        match actionsAt it with
        | [] => if 3 < it then (it, true) else (it, task_completed)
        | _ :: _ => agentLoopAux actionsAt shotOk remaining it task_completed
      else (it, task_completed)

/-- The perception loop of `automate_teams_with_agent`, started with
`iteration = 0` and `task_completed = False`; yields the final iteration
counter and `task_completed`. -/
def automate_teams_with_agent_loop (actionsAt : Nat → List AgentAction)
    (shotOk : Nat → Bool) (max_iterations : Nat) : Nat × Bool :=
  agentLoopAux actionsAt shotOk max_iterations 0 false

/-! ## Worker (teams_cua.py, `AgentWorker.run_task`)

`run_task` first raises `RuntimeError` when the agent was never initialized
(this is before its `try`), then wraps the whole streaming
`async for result in self.agent.run(task_text)` body in
`try`/`except Exception`: a raising agent run is logged with
`logger.exception` and the function returns `False`; a completed run returns
`True`.  The body only logs text snippets and saves screenshots
(`_save_screenshot_bytes` has its own `try` around the file write), so the
run's outcome is all that reaches the return value; `agentRun` stands for
that outcome. -/
def run_task (ready : Bool) (agentRun : Except String Unit) : Except String Bool :=
  if ready = false then Except.error "Agent not initialized"
  else
    match agentRun with
    | Except.ok _ => Except.ok true
    | Except.error _ => Except.ok false

/-! ## Daemon (teams_cua.py, `CUADaemon`)

The daemon's worker loops (`_agent_loop`), the shared `asyncio.Queue` and the
flag/sentinel part of `stop` are modelled as a small-step transition relation
on daemon states; cooperative scheduling of the event loop is the
interleaving of steps.  Queue items are `Option String`: `some t` a real
task, `none` the `stop` sentinel.  `unfinished` is the queue's internal
unfinished-task counter: `put` increments it, `task_done` decrements it, and
`queue.join()` returns exactly when it is `0`.

A worker's position in `_agent_loop`:
  * `loopHead`   — about to evaluate the `while self._running` condition
                   (also the position during the 0.5 s sleep that precedes it);
  * `waitingGet` — suspended in `await self.queue.get()`;
  * `running t`  — inside `await worker.run_task(t)`;
  * `exited`     — left the loop (after `break` or a false `while` condition).

`run_task` returns normally for every `Exception` raised by the task (see
`run_task` above), and the loop's own `except Exception` handler sleeps and
continues, so finishing a task — however it ended — leads back to the loop
head after `task_done`.  Task cancellation (`t.cancel()`) is issued by `stop`
only after `queue.join()` has returned, i.e. after the phase these steps
model, and is therefore not a step here.  `enqueue_teams_message` runs before
shutdown in `main`; runs are modelled from the state holding the already
enqueued items. -/

/-- Position of one worker inside `CUADaemon._agent_loop`. -/
inductive WPhase where
  | loopHead
  | waitingGet
  | running (task : String)
  | exited
deriving DecidableEq, Repr

/-- State of the daemon: the queue contents, the queue's unfinished-task
counter, `self._running`, and each worker's position. -/
structure DState where
  queue : List (Option String)
  unfinished : Nat
  running : Bool
  workers : List WPhase
deriving DecidableEq, Repr

/-- The flag-and-sentinel prefix of `CUADaemon.stop` (lines 186–190):
`self._running = False`, then one `await self.queue.put(None)` per worker.
None of these operations suspends (`put` on an unbounded queue completes
immediately), so they act as one step. -/
def stop_enqueue_sentinels (s : DState) : DState :=
  { s with running := false,
           queue := s.queue ++ List.replicate s.workers.length none,
           unfinished := s.unfinished + s.workers.length }

/-- One scheduler step of the daemon: either some worker `i` advances through
`_agent_loop`, or the `stop` coroutine performs its flag-and-sentinel prefix
before blocking in `queue.join()`. -/
inductive DStep : DState → DState → Prop where
  | loop_continue (s : DState) (i : Nat) :
      s.workers[i]? = some WPhase.loopHead → s.running = true →
      DStep s { s with workers := s.workers.set i WPhase.waitingGet }
  | loop_exit (s : DState) (i : Nat) :
      s.workers[i]? = some WPhase.loopHead → s.running = false →
      DStep s { s with workers := s.workers.set i WPhase.exited }
  | get_task (s : DState) (i : Nat) (t : String) (rest : List (Option String)) :
      s.workers[i]? = some WPhase.waitingGet → s.queue = some t :: rest →
      DStep s { s with queue := rest, workers := s.workers.set i (WPhase.running t) }
  | get_sentinel (s : DState) (i : Nat) (rest : List (Option String)) :
      s.workers[i]? = some WPhase.waitingGet → s.queue = none :: rest →
      DStep s { s with queue := rest, unfinished := s.unfinished - 1,
                       workers := s.workers.set i WPhase.exited }
  | finish_task (s : DState) (i : Nat) (t : String) :
      s.workers[i]? = some (WPhase.running t) →
      DStep s { s with unfinished := s.unfinished - 1,
                       workers := s.workers.set i WPhase.loopHead }
  | stop_begin (s : DState) :
      s.running = true →
      DStep s (stop_enqueue_sentinels s)

/-- Reachability under daemon steps. -/
def DReaches : DState → DState → Prop := Relation.ReflTransGen DStep

/-! ## Session lifecycle

`automate_teams_with_agent` (agent_preview.py): `initialize_computer` either
fails (caught, `False`, early return before the `try`) or leaves a live
session; the `try`/`except`/`finally` around the main loop stops the
computer in the `finally` block on every path.  `body` is the outcome of the
`try` block: `Except.ok b` when it returns `task_completed = b`,
`Except.error` when it raises. -/

inductive SessionEv where
  | acquired
  | released
deriving DecidableEq, Repr

/-- Session events and return value of
`TeamsAutomationWithAgent.automate_teams_with_agent` (lines 167–253),
keeping only the session lifecycle: the loop internals are
`automate_teams_with_agent_loop` above. -/
def automate_teams_with_agent_session (initOk : Bool) (body : Except String Bool) :
    List SessionEv × Bool :=
  if initOk = false then ([], false)
  else
    match body with
    | Except.ok b => ([SessionEv.acquired, SessionEv.released], b)
    | Except.error _ => ([SessionEv.acquired, SessionEv.released], false)

/-- Session events of `automate_teams` (cui.py lines 8–79): the `computer` is
constructed, then an inner `try` runs `computer.run()` and the scripted
steps, with `finally: await computer.stop()`; the outer `except Exception`
absorbs everything.  `runOk` is whether `computer.run()` succeeded (the
session was acquired); `steps` is the outcome of the scripted body. -/
def automate_teams_cui_session (runOk : Bool) (steps : Except String Unit) :
    List SessionEv :=
  if runOk = false then [SessionEv.released]
  else
    match steps with
    | Except.ok _ => [SessionEv.acquired, SessionEv.released]
    | Except.error _ => [SessionEv.acquired, SessionEv.released]

/-! ## Coordinate map (testom/testing.py)

The persisted `teams_coords.json` holds a JSON object mapping anchor names
to `{"x": …, "y": …}` objects (as written by `_capture_cursor` and
`save_coords`).  Python's `json.dumps`/`json.loads` text layer is the
standard library (external to this repository); the file is modelled as the
JSON value it holds, `save_coords` as the encoding of the coordinate dict
into that value and `load_coords` as the decoding of the value back into a
dict.  Dicts are insertion-ordered association lists. -/

/-- The JSON values occurring in the coordinate file. -/
inductive Json where
  | num (n : Int)
  | str (s : String)
  | obj (fields : List (String × Json))

/-- A calibrated position, `{"x": …, "y": …}`. -/
structure Pos where
  x : Int
  y : Int
deriving DecidableEq, Repr

/-- Decode one `{"x": …, "y": …}` object. -/
def decodePos : Json → Option Pos
  | Json.obj [("x", Json.num a), ("y", Json.num b)] => some ⟨a, b⟩
  | _ => none

/-- Decode the fields of the top-level object into a coordinate dict. -/
def decodeFields : List (String × Json) → Option (List (String × Pos))
  | [] => some []
  | (k, v) :: rest =>
    match decodePos v, decodeFields rest with
    | some p, some ps => some ((k, p) :: ps)
    | _, _ => none

/-- `save_coords(c)` (testom/testing.py lines 33–34): the JSON value written
to `COORD_FILE` for the coordinate dict `c` (`indent=2` only affects
whitespace).  The resulting `Option Json` is the file's content: after a
save the file exists. -/
def save_coords (c : List (String × Pos)) : Option Json :=
  some (Json.obj (c.map (fun kp =>
    (kp.1, Json.obj [("x", Json.num kp.2.x), ("y", Json.num kp.2.y)]))))

/-- `load_coords()` (testom/testing.py lines 28–31): `{}` when the file does
not exist, otherwise the parsed content (`none` here standing for the shapes
on which the read would not produce a coordinate dict). -/
def load_coords (file : Option Json) : Option (List (String × Pos)) :=
  match file with
  | none => some []
  | some (Json.obj fields) => decodeFields fields
  | some _ => none

/-! ## Theorems -/

/-- The final iteration counter of `agentLoopAux` never exceeds the starting
counter plus the remaining fuel. -/
lemma agentLoopAux_fst_le (actionsAt : Nat → List AgentAction) (shotOk : Nat → Bool) :
    ∀ (remaining iteration : Nat),
      (agentLoopAux actionsAt shotOk remaining iteration false).1 ≤ iteration + remaining := by
  intro remaining
  induction remaining with
  | zero => intro iteration; simp [agentLoopAux]
  | succ n ih =>
    intro iteration
    simp only [agentLoopAux, Bool.false_eq_true, if_false]
    by_cases hs : shotOk (iteration + 1) = true
    · simp only [hs, if_true]
      rcases h : actionsAt (iteration + 1) with - | ⟨a, rest⟩
      · simp only [h]
        by_cases h3 : 3 < iteration + 1 <;> simp [h3]
      · simp only [h]
        have := ih (iteration + 1)
        omega
    · simp [hs]

/-- C2: for every oracle of decision-service results and screenshot
outcomes, the perception loop of `automate_teams_with_agent` performs at
most `max_iterations` iterations (the loop is a total function, so it
terminates); this holds in particular when every service call returns a
non-empty action list. -/
theorem automate_loop_iterations_le (actionsAt : Nat → List AgentAction)
    (shotOk : Nat → Bool) (max_iterations : Nat) :
    (automate_teams_with_agent_loop actionsAt shotOk max_iterations).1 ≤ max_iterations := by
  have h := agentLoopAux_fst_le actionsAt shotOk max_iterations 0
  simpa [automate_teams_with_agent_loop] using h

/-- C5: an action whose kind is none of click/type/scroll/keypress/wait
falls through to the final `else` of `execute_agent_action`: no
desktop-control primitive is invoked and no exception escapes (nor is one
even caught) — the action is only logged. -/
theorem execute_agent_action_unknown_kind (iface : Primitive → Except String Unit)
    (d : ActionDetails) (t : String)
    (h1 : t ≠ "click") (h2 : t ≠ "type") (h3 : t ≠ "scroll")
    (h4 : t ≠ "keypress") (h5 : t ≠ "wait") :
    execute_agent_action iface ⟨t, d⟩ = ([], none) := by
  simp [execute_agent_action, h1, h2, h3, h4, h5]

/-- C5 witness: a concrete unrecognized kind. -/
theorem execute_agent_action_unknown_kind_witness :
    execute_agent_action (fun _ => Except.ok ()) ⟨"double_click", {}⟩ = ([], none) :=
  execute_agent_action_unknown_kind (fun _ => Except.ok ()) {} "double_click"
    (by decide) (by decide) (by decide) (by decide) (by decide)

/-- C6: when the single decision-service call inside `get_agent_actions`
raises, the `except Exception` handler returns the empty action list; the
response history is left unchanged and the call is not retried (the
function performs exactly the one `svc` application by construction). -/
theorem get_agent_actions_service_error (response_history : List AgentResponse)
    (svc : Option String → Except String AgentResponse) (e : String)
    (h : svc ((response_history.getLast?).map (fun r => r.id)) = Except.error e) :
    get_agent_actions response_history svc = (response_history, []) := by
  simp [get_agent_actions, h]

/-- C6 witness: a service that always raises, starting from an empty
history. -/
theorem get_agent_actions_service_error_witness :
    get_agent_actions [] (fun _ => Except.error "connection refused") = ([], []) :=
  get_agent_actions_service_error [] (fun _ => Except.error "connection refused")
    "connection refused" rfl

/-- C9: a `click` action is executed as `left_click(x, y)` at the action's
coordinates whatever its `button` field holds — the branch reads `button`
only for the log line, so `button = "right"` and `button = "left"` produce
identical behaviour. -/
theorem execute_agent_action_click_ignores_button
    (iface : Primitive → Except String Unit) (d : ActionDetails) :
    (execute_agent_action iface ⟨"click", d⟩).1 =
      [Primitive.leftClick (d.x.getD 0) (d.y.getD 0)] ∧
    execute_agent_action iface ⟨"click", { d with button := some "right" }⟩ =
      execute_agent_action iface ⟨"click", { d with button := some "left" }⟩ := by
  constructor
  · simp only [execute_agent_action]
    cases iface (Primitive.leftClick (d.x.getD 0) (d.y.getD 0)) <;> simp
  · rfl

/-- C10: a `scroll` action issues no call against the desktop-control
session at all (the interface call is commented out in the source): the
effect trace is empty — the parameters are only logged — and no error can
arise. -/
theorem execute_agent_action_scroll_noop (iface : Primitive → Except String Unit)
    (d : ActionDetails) :
    execute_agent_action iface ⟨"scroll", d⟩ = ([], none) := by
  rfl

/-- C7: once the session is acquired (`initialize_computer` returned `True`
in agent_preview.py, `computer.run()` succeeded in cui.py), the `finally`
blocks release it exactly once on every outcome of the main body —
normal return or unhandled exception. -/
theorem session_released_exactly_once (body : Except String Bool)
    (steps : Except String Unit) :
    (automate_teams_with_agent_session true body).1.count SessionEv.released = 1 ∧
    (automate_teams_cui_session true steps).count SessionEv.released = 1 := by
  constructor
  · cases body <;> simp [automate_teams_with_agent_session]
  · cases steps <;> simp [automate_teams_cui_session]

/-- Decoding the encoded coordinate dict recovers the dict. -/
lemma decodeFields_encode (m : List (String × Pos)) :
    decodeFields (m.map (fun kp =>
      (kp.1, Json.obj [("x", Json.num kp.2.x), ("y", Json.num kp.2.y)]))) = some m := by
  induction m with
  | nil => rfl
  | cons kp rest ih => simp [decodeFields, decodePos, ih]

/-- C8: saving any coordinate map with `save_coords` and reloading it with
`load_coords` reproduces the identical mapping. -/
theorem load_coords_save_coords_roundtrip (m : List (String × Pos)) :
    load_coords (save_coords m) = some m := by
  simp [load_coords, save_coords, decodeFields_encode]

/-! ### Completion condition of the perception loop (C3)

The source (agent_preview.py lines 215–220) sets `task_completed = True`
and leaves the loop on the *first* empty action list, provided the current
iteration number exceeds 3; an empty list on iterations 1–3 leaves the loop
without marking completion.  No count of consecutive empty results exists. -/

/-- A run on which the decision service returns a non-empty list on
iterations 1–3 and an empty list on every later iteration. -/
def cexActionsAt : Nat → List AgentAction :=
  fun n => if n ≤ 3 then [⟨"click", {}⟩] else []

/-- C3 counterexample: on `cexActionsAt` the loop marks the task completed
at iteration 4 although the decision service returned an empty action list
on exactly one of the performed iterations — a single empty result, not
several consecutive ones, triggered completion. -/
theorem single_empty_marks_completed :
    automate_teams_with_agent_loop cexActionsAt (fun _ => true) 15 = (4, true) ∧
    ((List.range' 1 4).filter (fun n => (cexActionsAt n).isEmpty)).length = 1 ∧
    cexActionsAt 4 = [] ∧ cexActionsAt 3 ≠ [] := by
  refine ⟨by decide, by decide, by decide, by decide⟩

/-- On always-successful screenshots, `agentLoopAux` reports completion
exactly when the first empty service result after the start counter occurs
within the fuel and at an iteration number above 3. -/
lemma agentLoopAux_completed_iff (actionsAt : Nat → List AgentAction) :
    ∀ (remaining iteration : Nat),
      (agentLoopAux actionsAt (fun _ => true) remaining iteration false).2 = true ↔
      ∃ k, iteration < k ∧ k ≤ iteration + remaining ∧ 3 < k ∧ actionsAt k = [] ∧
        ∀ j, iteration < j → j < k → actionsAt j ≠ [] := by
  intro remaining
  induction remaining with
  | zero =>
    intro iteration
    simp only [agentLoopAux]
    constructor
    · intro h; exact absurd h (by simp)
    · rintro ⟨k, h1, h2, -, -, -⟩; exfalso; omega
  | succ n ih =>
    intro iteration
    simp only [agentLoopAux, Bool.false_eq_true, if_false, if_true]
    rcases h : actionsAt (iteration + 1) with - | ⟨a, rest⟩
    · simp only [h]
      by_cases h3 : 3 < iteration + 1
      · simp only [h3, if_true]
        constructor
        · intro _
          exact ⟨iteration + 1, by omega, by omega, h3, h,
            fun j hj1 hj2 => by exfalso; omega⟩
        · intro _; trivial
      · simp only [h3, if_false]
        constructor
        · intro hf; exact absurd hf (by simp)
        · rintro ⟨k, hk1, hk2, hk3, hkE, hkAll⟩
          exfalso
          by_cases hk : k = iteration + 1
          · exact h3 (hk ▸ hk3)
          · exact hkAll (iteration + 1) (by omega) (by omega) h
    · simp only [h]
      rw [ih (iteration + 1)]
      constructor
      · rintro ⟨k, hk1, hk2, hk3, hkE, hkAll⟩
        refine ⟨k, by omega, by omega, hk3, hkE, fun j hj1 hj2 => ?_⟩
        by_cases hji : j = iteration + 1
        · rw [hji, h]; simp
        · exact hkAll j (by omega) hj2
      · rintro ⟨k, hk1, hk2, hk3, hkE, hkAll⟩
        have hkne : k ≠ iteration + 1 := by
          intro he
          rw [he, h] at hkE
          simp at hkE
        exact ⟨k, by omega, by omega, hk3, hkE, fun j hj1 hj2 => hkAll j (by omega) hj2⟩

/-- C3 as amended: with screenshots succeeding throughout, the perception
loop treats the task as complete exactly when the first empty action list
from the decision service arrives on an iteration number greater than 3 and
within the iteration budget.  Any empty result ends the loop at once: one
on iterations 1–3 ends it without marking completion, one later marks
completion by itself — no several-consecutive-empties condition exists. -/
theorem automate_loop_completed_iff (actionsAt : Nat → List AgentAction)
    (max_iterations : Nat) :
    (automate_teams_with_agent_loop actionsAt (fun _ => true) max_iterations).2 = true ↔
    ∃ k, 3 < k ∧ k ≤ max_iterations ∧ actionsAt k = [] ∧
      ∀ j, 0 < j → j < k → actionsAt j ≠ [] := by
  rw [automate_teams_with_agent_loop, agentLoopAux_completed_iff actionsAt max_iterations 0]
  constructor
  · rintro ⟨k, h1, h2, h3, hE, hAll⟩
    exact ⟨k, h3, by omega, hE, hAll⟩
  · rintro ⟨k, h3, h2, hE, hAll⟩
    exact ⟨k, by omega, by omega, h3, hE, hAll⟩

/-! ### Worker error absorption (C4) -/

/-- C4: an `Exception` raised while the worker executes a Task is absorbed
inside the worker and the worker keeps serving the queue:
(1) `run_task` returns `False` normally for every raising agent run — the
exception is caught and logged by its own handler, so nothing propagates
past `_agent_loop`;
(2) no daemon step takes a worker that is executing a task anywhere but
back to the loop head — whatever the task did, the worker never terminates
because of it;
(3) from the loop head a running daemon lets the worker proceed into
`queue.get()` for its next Task. -/
theorem worker_absorbs_task_errors :
    (∀ e : String, run_task true (Except.error e) = Except.ok false) ∧
    (∀ (s s' : DState) (i : Nat) (t : String), DStep s s' →
        s.workers[i]? = some (WPhase.running t) →
        s'.workers[i]? = some (WPhase.running t) ∨
        s'.workers[i]? = some WPhase.loopHead) ∧
    (∀ (s : DState) (i : Nat), s.workers[i]? = some WPhase.loopHead →
        s.running = true →
        DStep s { s with workers := s.workers.set i WPhase.waitingGet }) := by
  refine ⟨fun e => rfl, ?_, fun s i hw hr => DStep.loop_continue s i hw hr⟩
  intro s s' i t hstep hw
  cases hstep with
  | loop_continue j hj hr =>
    by_cases hij : j = i
    · subst hij; rw [hw] at hj; simp at hj
    · exact Or.inl (by simpa [List.getElem?_set_ne hij] using hw)
  | loop_exit j hj hr =>
    by_cases hij : j = i
    · subst hij; rw [hw] at hj; simp at hj
    · exact Or.inl (by simpa [List.getElem?_set_ne hij] using hw)
  | get_task j t' rest hj hq =>
    by_cases hij : j = i
    · subst hij; rw [hw] at hj; simp at hj
    · exact Or.inl (by simpa [List.getElem?_set_ne hij] using hw)
  | get_sentinel j rest hj hq =>
    by_cases hij : j = i
    · subst hij; rw [hw] at hj; simp at hj
    · exact Or.inl (by simpa [List.getElem?_set_ne hij] using hw)
  | finish_task j t' hj =>
    by_cases hij : j = i
    · subst hij
      have hlt : j < s.workers.length := by
        rcases List.getElem?_eq_some.1 hw with ⟨h, -⟩
        exact h
      right
      show (s.workers.set j WPhase.loopHead)[j]? = some WPhase.loopHead
      exact List.getElem?_set_eq_of_lt WPhase.loopHead hlt
    · exact Or.inl (by simpa [List.getElem?_set_ne hij] using hw)
  | stop_begin hr =>
    exact Or.inl hw

/-- A daemon whose one worker is halfway through an erroring task: the
demo of teams_cua.py `main` after the worker dequeued its task. -/
def sC4a : DState :=
  { queue := [some "send a second message"], unfinished := 2, running := true,
    workers := [WPhase.running "send hello"] }

/-- `sC4a` after the worker finished the task (its run may have raised),
called `task_done` and returned to the loop head. -/
def sC4b : DState :=
  { sC4a with unfinished := sC4a.unfinished - 1,
              workers := sC4a.workers.set 0 WPhase.loopHead }

/-- C4 witness: the worker of `sC4a` steps back to the loop head after an
erroring task, and from there re-enters `queue.get()`. -/
theorem worker_absorbs_task_errors_witness :
    run_task true (Except.error "backend unreachable") = Except.ok false ∧
    (sC4b.workers[0]? = some (WPhase.running "send hello") ∨
      sC4b.workers[0]? = some WPhase.loopHead) ∧
    DStep sC4b { sC4b with workers := sC4b.workers.set 0 WPhase.waitingGet } :=
  ⟨worker_absorbs_task_errors.1 "backend unreachable",
   worker_absorbs_task_errors.2.1 sC4a sC4b 0 "send hello"
     (DStep.finish_task sC4a 0 "send hello" rfl) rfl,
   worker_absorbs_task_errors.2.2 sC4b 0 rfl rfl⟩

/-! ### The shutdown deadlock (C1)

`CUADaemon.stop` sets `self._running = False` *before* enqueuing the
sentinels.  A worker that is inside `run_task` at that moment finishes its
task, calls `task_done` (all real Tasks are now done), re-evaluates
`while self._running`, sees `False` and leaves the loop without ever
dequeuing its sentinel.  The sentinel's `task_done` is never called, the
queue's unfinished counter stays at 1, and `queue.join()` — which returns
only when the counter reaches 0 — never returns. -/

/-- One worker executing the demo task at the moment `stop()` runs. -/
def sBug0 : DState :=
  { queue := [], unfinished := 1, running := true,
    workers := [WPhase.running "send hello to John Doe"] }

/-- The stuck end state: the sentinel still queued, the worker gone, one
unfinished item. -/
def sBugDead : DState :=
  { queue := [none], unfinished := 1, running := false,
    workers := [WPhase.exited] }

/-- No daemon step leaves `sBugDead`: the only worker has exited and the
stop flag is already down. -/
lemma sBugDead_stuck : ∀ s', ¬ DStep sBugDead s' := by
  intro s' h
  cases h with
  | loop_continue j hj hr => exact absurd hr (by decide)
  | loop_exit j hj hr =>
    rcases j with - | j
    · simp [sBugDead] at hj
    · simp [sBugDead] at hj
  | get_task j t' rest hj hq => simp [sBugDead] at hq
  | get_sentinel j rest hj hq =>
    rcases j with - | j
    · simp [sBugDead] at hj
    · simp [sBugDead] at hj
  | finish_task j t' hj =>
    rcases j with - | j
    · simp [sBugDead] at hj
    · simp [sBugDead] at hj
  | stop_begin hr => exact absurd hr (by decide)

/-- C1 (code bug): from a daemon whose one worker is mid-task when `stop`
runs, the schedule  stop sets the flag and enqueues the sentinel → the
worker finishes its task and calls `task_done` → the worker re-checks
`self._running` and exits  is a valid run reaching `sBugDead`.  There every
real Task has been marked done (only the sentinel remains queued, no worker
holds a task), yet the unfinished counter is 1, no further step exists, and
every state reachable from it keeps the counter non-zero — so
`queue.join()`, which returns only at counter 0, never returns. -/
theorem stop_join_never_returns :
    DReaches sBug0 sBugDead ∧
    sBugDead.queue = [none] ∧
    sBugDead.workers = [WPhase.exited] ∧
    sBugDead.unfinished = 1 ∧
    (∀ s', ¬ DStep sBugDead s') ∧
    (∀ s', DReaches sBugDead s' → s'.unfinished ≠ 0) := by
  refine ⟨?_, rfl, rfl, rfl, sBugDead_stuck, ?_⟩
  · have h01 : DStep sBug0 (stop_enqueue_sentinels sBug0) :=
      DStep.stop_begin sBug0 rfl
    have h12 : DStep (stop_enqueue_sentinels sBug0)
        { stop_enqueue_sentinels sBug0 with
          unfinished := (stop_enqueue_sentinels sBug0).unfinished - 1,
          workers := (stop_enqueue_sentinels sBug0).workers.set 0 WPhase.loopHead } :=
      DStep.finish_task (stop_enqueue_sentinels sBug0) 0 "send hello to John Doe" rfl
    refine Relation.ReflTransGen.head h01 (Relation.ReflTransGen.head h12 ?_)
    have h23 : DStep
        { stop_enqueue_sentinels sBug0 with
          unfinished := (stop_enqueue_sentinels sBug0).unfinished - 1,
          workers := (stop_enqueue_sentinels sBug0).workers.set 0 WPhase.loopHead }
        sBugDead := by
      have h := DStep.loop_exit
        { stop_enqueue_sentinels sBug0 with
          unfinished := (stop_enqueue_sentinels sBug0).unfinished - 1,
          workers := (stop_enqueue_sentinels sBug0).workers.set 0 WPhase.loopHead }
        0 rfl rfl
      simpa using h
    exact Relation.ReflTransGen.head h23 Relation.ReflTransGen.refl
  · intro s' h
    have hs : s' = sBugDead := by
      induction h with
      | refl => rfl
      | tail hab hbc ih => exact absurd (ih ▸ hbc) (sBugDead_stuck _)
    rw [hs]
    decide

end TeamsAuto
